import Mathlib

/-!
A shallow embedding of the request-text parser and response-decoding
pipeline of RESTer.py (a Sublime Text HTTP client plugin), together with
theorems settling the specification claims about it.

Python strings are modelled as Lean `String` (operating on `List Char`
where convenient), Python byte sequences as `List Nat`, Python dicts as
insertion-ordered association lists with in-place update on key collision,
and fallible Python code (raising exceptions) as `Except`.
-/

/-! ## Python string primitives (models of the Python built-ins used) -/

/-- Model of Python `str.isspace` characters relevant to `strip`/`lstrip`:
space, tab, newline, carriage return, vertical tab, form feed. -/
def pyIsSpace (c : Char) : Bool :=
  c = ' ' || c = '\t' || c = '\n' || c = '\r' || c = '\x0b' || c = '\x0c'

/-- Model of Python `str.lstrip()`. -/
def pyLstrip (s : String) : String :=
  String.mk (s.toList.dropWhile pyIsSpace)

/-- Model of Python `str.strip()`. -/
def pyStrip (s : String) : String :=
  String.mk (((s.toList.dropWhile pyIsSpace).reverse.dropWhile pyIsSpace).reverse)

/-- ASCII lower-casing of a string, model of Python `str.lower()` on the
ASCII inputs this program deals with. -/
def lowerStr (s : String) : String :=
  String.mk (s.toList.map Char.toLower)

/-- ASCII upper-casing of a string, model of Python `str.upper()` on the
ASCII inputs this program deals with. -/
def upperStr (s : String) : String :=
  String.mk (s.toList.map Char.toUpper)

/-- Does the character occur in the string?  Model of Python `c in s` for a
single-character needle. -/
def strContainsChar (s : String) (c : Char) : Bool :=
  s.toList.contains c

/-- Substring test over char lists (model of Python `sub in s`). -/
def listContainsSeq (pat : List Char) : List Char → Bool
  | [] => pat.isEmpty
  | c :: rest => pat.isPrefixOf (c :: rest) || listContainsSeq pat rest

/-- Model of Python `sub in s` (substring containment). -/
def strHasSubstr (sub s : String) : Bool :=
  listContainsSeq sub.toList s.toList

/-- Split a char list at the first occurrence of `c`; model of Python
`s.split(c, 1)` (when `c` occurs) and `s.partition(c)[0::2]`.  When `c` is
absent the whole list is the first component and the second is empty. -/
def splitOnceChar (c : Char) : List Char → (List Char × List Char)
  | [] => ([], [])
  | x :: rest =>
    if x = c then ([], rest)
    else
      let (a, b) := splitOnceChar c rest
      (x :: a, b)

/-- Model of Python `s.split(c, 1)` on strings, first component before the
first `c`, second after it. -/
def strSplitOnce (s : String) (c : Char) : String × String :=
  let (a, b) := splitOnceChar c s.toList
  (String.mk a, String.mk b)

/-- Model of Python `s.rpartition(c)[2]`: the part after the last
occurrence of `c` (the whole list when `c` is absent). -/
def afterLastChar (c : Char) (cs : List Char) : List Char :=
  ((splitOnceChar c cs.reverse).1).reverse

/-- Fuel-driven split on a non-empty separator; model of Python
`s.split(sep)` for the separators this program uses (line endings). -/
def splitSepFuel (sep : List Char) : Nat → List Char → List (List Char)
  | _, [] => [[]]
  | 0, cs => [cs]
  | fuel + 1, c :: rest =>
    if sep.isPrefixOf (c :: rest) then
      [] :: splitSepFuel sep fuel ((c :: rest).drop sep.length)
    else
      match splitSepFuel sep fuel rest with
      | [] => [[c]]
      | seg :: segs => (c :: seg) :: segs

/-- Model of Python `s.split(sep)` for non-empty `sep`. -/
def pySplit (s sep : String) : List String :=
  if sep.toList.isEmpty then [s]
  else (splitSepFuel sep.toList s.toList.length s.toList).map String.mk

/-- Model of Python `sep.join(parts)`. -/
def pyJoin (sep : String) : List String → String
  | [] => ""
  | [s] => s
  | s :: rest => s ++ sep ++ pyJoin sep rest

/-! ## Python dict model: insertion-ordered association list -/

/-- Insert into an association list with Python-dict semantics: an
existing key is updated in place, a new key is appended. -/
def dictInsert {β : Type} (d : List (String × β)) (k : String) (v : β) :
    List (String × β) :=
  match d with
  | [] => [(k, v)]
  | (k', v') :: rest =>
    if k' = k then (k, v) :: rest else (k', v') :: dictInsert rest k v

/-- Lookup in the association-list dict model. -/
def dictLookup {β : Type} (d : List (String × β)) (k : String) : Option β :=
  match d with
  | [] => Option.none
  | (k', v) :: rest => if k' = k then some v else dictLookup rest k

/-- Build a dict from a pair list, later pairs winning; model of Python
`dict(pairs)`. -/
def dictFromPairs {β : Type} (pairs : List (String × β)) : List (String × β) :=
  pairs.foldl (fun d kv => dictInsert d kv.1 kv.2) []

/-- Python truthiness of an optional string (`None` and `""` are falsy). -/
def optStrTruthy : Option String → Bool
  | Option.none => false
  | some s => s ≠ ""

/-! ## Model of `urllib.parse.urlparse`

RESTer.py delegates URI splitting to the standard library.  This models
CPython's `urlsplit`/`urlparse` for the inputs the parser can feed it:
tokens matched by `RE_URI` (which excludes `;`, so path-parameter
splitting never fires) and `"//" + path` fallback strings. -/

/-- Scheme characters per CPython `urllib.parse.scheme_chars`. -/
def isSchemeChar (c : Char) : Bool :=
  c.isAlpha || c.isDigit || c = '+' || c = '-' || c = '.'

def isAsciiAlpha (c : Char) : Bool :=
  ('A' ≤ c && c ≤ 'Z') || ('a' ≤ c && c ≤ 'z')

/-- The `scheme:` prefix split of `urlsplit`: a scheme is recognised when
`:` occurs at a positive index, the first character is an ASCII letter and
every character before the `:` is a scheme character. -/
def splitScheme (cs : List Char) : String × List Char :=
  match cs.findIdx? (· = ':') with
  | some i =>
    if 0 < i
        && (match cs.head? with
            | some c => isAsciiAlpha c
            | Option.none => false)
        && (cs.take i).all isSchemeChar then
      (String.mk ((cs.take i).map Char.toLower), cs.drop (i + 1))
    else ("", cs)
  | Option.none => ("", cs)

/-- The netloc split of `urlsplit`: when the rest starts with `//`, the
netloc runs until the next `/`, `?` or `#` (which stays in the rest). -/
def splitNetloc (cs : List Char) : String × List Char :=
  match cs with
  | '/' :: '/' :: rest =>
    (String.mk (rest.takeWhile (fun c => !(c = '/' || c = '?' || c = '#'))),
     rest.dropWhile (fun c => !(c = '/' || c = '?' || c = '#')))
  | _ => ("", cs)

structure UrlParts where
  scheme : String
  netloc : String
  path : String
  query : String
  fragment : String
deriving DecidableEq, Repr

/-- Model of `urllib.parse.urlparse` (no path-parameter splitting; the
inputs this program produces cannot contain `;`). -/
def urlparseM (url : String) : UrlParts :=
  let (scheme, rest) := splitScheme url.toList
  let (netloc, rest) := splitNetloc rest
  let (rest, fragment) :=
    if rest.contains '#' then splitOnceChar '#' rest else (rest, [])
  let (rest, query) :=
    if rest.contains '?' then splitOnceChar '?' rest else (rest, [])
  { scheme := scheme
    netloc := netloc
    path := String.mk rest
    query := String.mk query
    fragment := String.mk fragment }

/-- Model of the `hostname` property of a parse result: drop the userinfo
(after the last `@`), take the part before the port separator (bracketed
IPv6 hosts keep the part inside `[...]`), lower-case it; `None` when
empty. -/
def UrlParts.hostname (u : UrlParts) : Option String :=
  let hostinfo := afterLastChar '@' u.netloc.toList
  let host :=
    if hostinfo.contains '[' then
      (splitOnceChar ']' (splitOnceChar '[' hostinfo).2).1
    else (splitOnceChar ':' hostinfo).1
  if host.isEmpty then Option.none else some (String.mk (host.map Char.toLower))

/-! ## The request-line regular expressions

`RE_METHOD` is one or more of `A..Z`; `RE_URI` is one or more of letters,
digits and the punctuation listed in `isUriChar`; `RE_PROTOCOL` is `.*`.
They are combined with single spaces and applied with `re.search`
(leftmost match).  Because a space belongs to none of the character
classes, greedy matching with backtracking reduces to: maximal run of the
class, followed by the required literal space. -/

def isUpperAZ (c : Char) : Bool := 'A' ≤ c && c ≤ 'Z'

/-- The `RE_URI` character class. -/
def isUriChar (c : Char) : Bool :=
  c.isAlpha || c.isDigit ||
  c = '-' || c = '/' || c = '.' || c = '_' || c = ':' || c = '?' ||
  c = '#' || c = '[' || c = ']' || c = '@' || c = '!' || c = '$' ||
  c = '&' || c = '='

/-- The groups captured from a request line; absent groups are absent
keys of the Python `groupdict`. -/
structure ReqLine where
  method : Option String
  uri : String
  protocol : Option String
deriving DecidableEq, Repr

/-- Match `RE_METHOD SP RE_URI SP RE_PROTOCOL` anchored at the head of
`cs` (one backtracking-free step of `re.search`). -/
def matchMethodUriProtocolAt (cs : List Char) : Option ReqLine :=
  let m := cs.takeWhile isUpperAZ
  if m.isEmpty then Option.none
  else
    match cs.drop m.length with
    | ' ' :: rest =>
      let u := rest.takeWhile isUriChar
      if u.isEmpty then Option.none
      else
        match rest.drop u.length with
        | ' ' :: protocol =>
          some { method := some (String.mk m), uri := String.mk u,
                 protocol := some (String.mk protocol) }
        | _ => Option.none
    | _ => Option.none

/-- Match `RE_METHOD SP RE_URI` anchored at the head of `cs`. -/
def matchMethodUriAt (cs : List Char) : Option ReqLine :=
  let m := cs.takeWhile isUpperAZ
  if m.isEmpty then Option.none
  else
    match cs.drop m.length with
    | ' ' :: rest =>
      let u := rest.takeWhile isUriChar
      if u.isEmpty then Option.none
      else
        some { method := some (String.mk m), uri := String.mk u,
               protocol := Option.none }
    | _ => Option.none

/-- Match `RE_URI` anchored at the head of `cs`. -/
def matchUriAt (cs : List Char) : Option ReqLine :=
  let u := cs.takeWhile isUriChar
  if u.isEmpty then Option.none
  else some { method := Option.none, uri := String.mk u, protocol := Option.none }

/-- `re.search`: try the anchored matcher at each position, leftmost
match wins. -/
def reSearch (m : List Char → Option ReqLine) : List Char → Option ReqLine
  | [] => m []
  | c :: rest =>
    match m (c :: rest) with
    | some r => some r
    | Option.none => reSearch m rest

/-! ## JSON literal values (model of `json.loads` on scalar literals)

Override values are parsed by Python's `json.loads`.  The claims only
exercise scalar literals, so the model covers the JSON scalars: numbers
(integers), booleans, `null` and escape-free strings; anything else is a
parse error ("bad configuration" in the program). -/

inductive Json where
  | num (n : Int)
  | bool (b : Bool)
  | null
  | str (s : String)
deriving DecidableEq, Repr

/-- Digits-to-number accumulator. -/
def digitsToNat (ds : List Char) : Nat :=
  ds.foldl (fun n c => n * 10 + (c.toNat - '0'.toNat)) 0

/-- Modelled from the standard library: `json.loads` restricted to the
scalar JSON literals the claims exercise (`true`, `false`, `null`,
integers, escape-free strings).  Composite or otherwise unsupported
values are parse errors. -/
def jsonLoads (s : String) : Except Unit Json :=
  let cs := (pyStrip s).toList
  if cs = "true".toList then .ok (.bool true)
  else if cs = "false".toList then .ok (.bool false)
  else if cs = "null".toList then .ok .null
  else
    match cs with
    | '"' :: rest =>
      match rest.reverse with
      | '"' :: mid =>
        let body := mid.reverse
        if body.all (fun c => !(c = '"' || c = '\\')) then
          .ok (.str (String.mk body))
        else .error ()
      | _ => .error ()
    | '-' :: ds =>
      if !ds.isEmpty && ds.all Char.isDigit
          && !(ds.head? = some '0' && ds.length > 1) then
        .ok (.num (-(digitsToNat ds : Int)))
      else .error ()
    | ds =>
      if !ds.isEmpty && ds.all Char.isDigit
          && !(ds.head? = some '0' && ds.length > 1) then
        .ok (.num (digitsToNat ds))
      else .error ()

/-! ## Encoding sniffers (RESTer.py `scan_string_for_encoding` and
`scan_bytes_for_encoding`)

`RE_ENCODING` is: the literal `encoding` or `charset`, then `=`, then any
number of quote characters, then one or more of letters, digits or `-`
(the captured group), then any number of quote characters.  Quotes and
group characters are disjoint classes, so greedy matching needs no
backtracking. -/

/-- The captured-group character class of `RE_ENCODING`. -/
def isEncChar (c : Char) : Bool := c.isAlpha || c.isDigit || c = '-'

def isQuoteChar (c : Char) : Bool := c = Char.ofNat 39 || c = '"'

/-- One anchored attempt of `RE_ENCODING` with keyword `kw` at the head
of `cs`. -/
def matchEncodingKwAt (kw : List Char) (cs : List Char) : Option (List Char) :=
  if kw.isPrefixOf cs then
    match cs.drop kw.length with
    | '=' :: rest =>
      let grp := (rest.dropWhile isQuoteChar).takeWhile isEncChar
      if grp.isEmpty then Option.none else some grp
    | _ => Option.none
  else Option.none

/-- One anchored attempt of `RE_ENCODING` at the head of `cs`; the
alternation tries `encoding` before `charset`. -/
def matchEncodingAt (cs : List Char) : Option (List Char) :=
  match matchEncodingKwAt "encoding".toList cs with
  | some g => some g
  | Option.none => matchEncodingKwAt "charset".toList cs

/-- `re.search` for `RE_ENCODING`: leftmost match, returning the captured
group. -/
def searchEncoding : List Char → Option (List Char)
  | [] => Option.none
  | c :: rest =>
    match matchEncodingAt (c :: rest) with
    | some g => some g
    | Option.none => searchEncoding rest

/-- RESTer.py `scan_string_for_encoding`: read a string and return the
encoding identified within, or `None`. -/
def scan_string_for_encoding (string : String) : Option String :=
  (searchEncoding string.toList).map String.mk

/-- A byte value's membership in the ASCII image of a character class. -/
def byteIs (p : Char → Bool) (b : Nat) : Bool :=
  b < 128 && p (Char.ofNat b)

/-- Anchored attempt of the ASCII-encoded `RE_ENCODING` at the head of a
byte sequence. -/
def matchEncodingKwBytesAt (kw : List Nat) (bs : List Nat) : Option (List Nat) :=
  if kw.isPrefixOf bs then
    match bs.drop kw.length with
    | b :: rest =>
      if b = '='.toNat then
        let grp := (rest.dropWhile (byteIs isQuoteChar)).takeWhile (byteIs isEncChar)
        if grp.isEmpty then Option.none else some grp
      else Option.none
    | [] => Option.none
  else Option.none

def matchEncodingBytesAt (bs : List Nat) : Option (List Nat) :=
  match matchEncodingKwBytesAt ("encoding".toList.map Char.toNat) bs with
  | some g => some g
  | Option.none => matchEncodingKwBytesAt ("charset".toList.map Char.toNat) bs

def searchEncodingBytes : List Nat → Option (List Nat)
  | [] => Option.none
  | b :: rest =>
    match matchEncodingBytesAt (b :: rest) with
    | some g => some g
    | Option.none => searchEncodingBytes rest

/-- RESTer.py `scan_bytes_for_encoding`: search the ASCII-encoded pattern
over the raw bytes and decode the captured group as ASCII. -/
def scan_bytes_for_encoding (bytes : List Nat) : Option String :=
  (searchEncodingBytes bytes).map (fun g => String.mk (g.map Char.ofNat))

/-- ASCII bytes of a string (used to build concrete byte inputs). -/
def asciiBytes (s : String) : List Nat := s.toList.map Char.toNat

/-! ## The request state (the parsing-relevant members of
`HttpRequestThread`) and `__init__` defaults -/

/-- Parse errors: the Python exceptions that can escape
`_parse_header_lines` (`IndexError` from indexing an empty line,
`json.JSONDecodeError` from a malformed override value). -/
inductive PErr where
  | indexError
  | jsonError
deriving DecidableEq, Repr

/-- The parsing-relevant instance members of `HttpRequestThread`, with
the defaults assigned in `__init__` (`scheme="http"`, `method="GET"`,
everything else absent).  `headers` starts as the default headers;
`overrides` models what is handed to `settings.set_overrides`. -/
structure Request where
  scheme : String := "http"
  hostname : Option String := Option.none
  path : Option String := Option.none
  query : Option String := Option.none
  method : String := "GET"
  headers : List (String × String) := []
  body : Option String := Option.none
  overrides : List (String × Json) := []
deriving DecidableEq, Repr

/-! ## Python value model (for settings values whose type is checked) -/

/-- A Python value as found in settings: enough structure for the
`isinstance` checks the program performs.  Header dicts are modelled with
string values (the only shape the program consumes). -/
inductive PyVal where
  | str (s : String)
  | int (n : Int)
  | bool (b : Bool)
  | list (xs : List PyVal)
  | dict (d : List (String × String))
  | pyNone

def PyVal.isDict : PyVal → Bool
  | .dict _ => true
  | _ => false

def PyVal.isStr : PyVal → Bool
  | .str _ => true
  | _ => false

/-- `__init__` lines 287-289: `self._headers =
settings.get("default_headers", {})` followed by the `isinstance(..., dict)`
guard that replaces a non-dict value with `{}`.  The argument is the
configured `default_headers` value, absent when not configured. -/
def init_default_headers (configured : Option PyVal) : List (String × String) :=
  match configured.getD (.dict []) with
  | .dict d => d
  | _ => []

/-! ## `HttpRequestThread._read_request_line_dict` and
`_parse_request_line` -/

/-- `_read_request_line_dict`: try the three request-line patterns in
order, first match wins; `None` if none matches. -/
def read_request_line_dict (line : String) : Option ReqLine :=
  match reSearch matchMethodUriProtocolAt line.toList with
  | some r => some r
  | Option.none =>
    match reSearch matchMethodUriAt line.toList with
    | some r => some r
    | Option.none => reSearch matchUriAt line.toList

/-- `_parse_request_line`: on a match, copy scheme/hostname/path/query
from the parsed URI, take the method when captured, and when the URI had
no scheme take `https` if a captured protocol contains `HTTPS`
(upper-cased containment). -/
def parse_request_line (st : Request) (line : String) : Request :=
  match read_request_line_dict line with
  | Option.none => st
  | some rl =>
    let uri := urlparseM rl.uri
    let st := { st with
      scheme := uri.scheme
      hostname := uri.hostname
      path := some uri.path
      query := some uri.query }
    let st :=
      match rl.method with
      | some m => { st with method := m }
      | Option.none => st
    if st.scheme = "" then
      match rl.protocol with
      | some p =>
        if strHasSubstr "HTTPS" (upperStr p) then { st with scheme := "https" }
        else st
      | Option.none => st
    else st

/-! ## `HttpRequestThread._parse_header_lines` -/

/-- One iteration of the header-line loop: lstrip the line, then test
`header[0] == "#"` (comment), `header[0] == "@" and ":" in header`
(override, value through `json.loads`), `":" in header` (header).
Indexing `header[0]` on an empty line raises `IndexError`; a malformed
JSON value raises. -/
def parse_header_line_step (acc : List (String × String) × List (String × Json))
    (header : String) : Except PErr (List (String × String) × List (String × Json)) :=
  let header := pyLstrip header
  match header.toList with
  | [] => .error .indexError
  | c :: _ =>
    if c = '#' then .ok acc
    else if c = '@' && strContainsChar header ':' then
      let t := String.mk (header.toList.drop 1)
      let (key, value) := strSplitOnce t ':'
      match jsonLoads (pyStrip value) with
      | .ok j => .ok (acc.1, dictInsert acc.2 (pyStrip key) j)
      | .error _ => .error .jsonError
    else if strContainsChar header ':' then
      let (key, value) := strSplitOnce header ':'
      .ok (dictInsert acc.1 key (pyStrip value), acc.2)
    else .ok acc

/-- The header-line loop of `_parse_header_lines`. -/
def parse_header_lines_aux (acc : List (String × String) × List (String × Json)) :
    List String → Except PErr (List (String × String) × List (String × Json))
  | [] => .ok acc
  | l :: rest =>
    match parse_header_line_step acc l with
    | .ok acc' => parse_header_lines_aux acc' rest
    | .error e => .error e

/-- `_parse_header_lines`: run the loop starting from empty `headers` and
`overrides` dicts, then merge: `if headers and self._headers:
self._headers = dict(list(self._headers.items()) + list(headers.items()))`
— the merge happens only when BOTH the parsed headers and the current
(default) headers are non-empty; otherwise `self._headers` is left as the
defaults.  Returns the final headers dict and the overrides. -/
def parse_header_lines (default_headers : List (String × String))
    (header_lines : List String) :
    Except PErr (List (String × String) × List (String × Json)) :=
  match parse_header_lines_aux ([], []) header_lines with
  | .error e => .error e
  | .ok (headers, overrides) =>
    let merged :=
      if !headers.isEmpty && !default_headers.isEmpty then
        dictFromPairs (default_headers ++ headers)
      else default_headers
    .ok (merged, overrides)

/-! ## `HttpRequestThread._normalize_line_endings` and `_parse_string` -/

/-- Combined effect of `string.replace("\r\n", "\n").replace("\r", "\n")`:
a single left-to-right pass mapping CRLF and lone CR to LF (the two
sequential replaces compute exactly this). -/
def normCRtoLF : List Char → List Char
  | [] => []
  | '\r' :: '\n' :: rest => '\n' :: normCRtoLF rest
  | '\r' :: rest => '\n' :: normCRtoLF rest
  | c :: rest => c :: normCRtoLF rest

/-- `if self._eol != "\n": string = string.replace("\n", self._eol)` —
each LF becomes the eol sequence (replacements are not rescanned). -/
def applyEol (eol : String) (cs : List Char) : List Char :=
  if eol = "\n" then cs
  else cs.flatMap (fun c => if c = '\n' then eol.toList else [c])

/-- `_normalize_line_endings`. -/
def normalize_line_endings (eol : String) (string : String) : String :=
  String.mk (applyEol eol (normCRtoLF string.toList))

/-- `_parse_string` (given the default headers established by `__init__`
and the eol): lstrip and normalize the text, split into lines, parse line
0 as the request line, scan for the first empty line to separate header
lines from the body, parse the header lines, reconcile the Host header,
and fall back to re-parsing `"//" + path` when no hostname was found. -/
def parse_string (default_headers : List (String × String)) (eol : String)
    (string : String) : Except PErr Request :=
  let string := pyLstrip string
  let string := normalize_line_endings eol string
  let lines := pySplit string eol
  let request_line := lines.headD ""
  let st := parse_request_line { headers := default_headers } request_line
  let rest := lines.tail
  let (header_lines, body) :=
    match rest.findIdx? (· = "") with
    | some j => (rest.take j, some (pyJoin eol (rest.drop (j + 1))))
    | Option.none => (rest, Option.none)
  match parse_header_lines default_headers header_lines with
  | .error e => .error e
  | .ok (headers, overrides) =>
    let st := { st with headers := headers, overrides := overrides, body := body }
    let st :=
      match headers.find? (fun kv => lowerStr kv.1 = "host") with
      | some kv =>
        if optStrTruthy st.hostname then st else { st with hostname := some kv.2 }
      | Option.none =>
        if optStrTruthy st.hostname then
          { st with headers := dictInsert st.headers "Host" (st.hostname.getD "") }
        else st
    let st :=
      if !optStrTruthy st.hostname && optStrTruthy st.path then
        let uri := urlparseM ("//" ++ st.path.getD "")
        { st with hostname := uri.hostname, path := some uri.path }
      else st
    .ok st

/-! ## Response decoding (RESTer.py `decode` and the body-decoding part
of `ResterHttpRequestCommand._complete_thread`)

Character decoding itself is the standard library's `bytes.decode`; the
embedding is parametric in a decoding oracle `decodeOne` mapping an
encoding name and the bytes to the decoded string or `None` when the
bytes are invalid for that encoding (`UnicodeDecodeError`). -/

/-- RESTer.py `decode`: return the first successfully decoded string,
trying each encoding in order; raise `DecodeError` when none succeeds. -/
def decode (decodeOne : String → List Nat → Option String) (bytes : List Nat) :
    List String → Except Unit String
  | [] => .error ()
  | encoding :: rest =>
    match decodeOne encoding bytes with
    | some body => .ok body
    | Option.none => decode decodeOne bytes rest

/-- `_complete_thread` lines 174-178: call `decode` and turn a
`DecodeError` into the literal placeholder body. -/
def decodeBodyOrPlaceholder (decodeOne : String → List Nat → Option String)
    (bytes : List Nat) (encodings : List String) : String :=
  match decode decodeOne bytes encodings with
  | .ok body => body
  | .error _ => "\x7bUnable to decode body\x7d"

/-- A concrete decoding oracle for witnesses: decodes only `ascii`, and
only when every byte is below 128, to the `!`-marked string of those
bytes' characters. -/
def asciiOracle (encoding : String) (bytes : List Nat) : Option String :=
  if encoding = "ascii" && bytes.all (· < 128) then
    some (String.mk (bytes.map Char.ofNat))
  else Option.none

/-- `_complete_thread` lines 152-172: build the candidate encoding list.
The content-type header is sniffed when the header is truthy; the
body-sniffed encoding is appended whenever found (the code has no
membership check there); each configured default is appended only when
not already present. -/
def build_encodings (content_type : Option String) (body_bytes : List Nat)
    (default_encodings : List String) : List String :=
  let encodings : List String := []
  let encodings :=
    if optStrTruthy content_type then
      match scan_string_for_encoding (content_type.getD "") with
      | some encoding => encodings ++ [encoding]
      | Option.none => encodings
    else encodings
  let encodings :=
    match scan_bytes_for_encoding body_bytes with
    | some encoding => encodings ++ [encoding]
    | Option.none => encodings
  default_encodings.foldl
    (fun acc encoding => if acc.contains encoding then acc else acc ++ [encoding])
    encodings

/-- The header-value sniff exactly as guarded in `_complete_thread`:
only a truthy content-type header is scanned. -/
def header_encoding (content_type : Option String) : Option String :=
  if optStrTruthy content_type then scan_string_for_encoding (content_type.getD "")
  else Option.none

/-- The candidate-list shape stated by the amended claim C5: the
header-sniffed encoding if present, then the body-sniffed encoding if
present (unconditionally, possibly duplicating the first), then the
defaults deduplicated against everything before them. -/
def build_encodings_amended_spec (header_enc body_enc : Option String)
    (default_encodings : List String) : List String :=
  let base := header_enc.toList ++ body_enc.toList
  default_encodings.foldl
    (fun acc encoding => if acc.contains encoding then acc else acc ++ [encoding])
    base

/-! ## Output assembly (`_complete_thread` lines 186-200 and
`InsertResponseCommand.run`) -/

/-- `InsertResponseCommand.run` as the text it inserts: the status line
plus eol when non-empty, the headers plus two eols when non-empty, then
the body. -/
def insert_response (status_line headers body eol : String) : String :=
  (if status_line ≠ "" then status_line ++ eol else "") ++
  (if headers ≠ "" then headers ++ eol ++ eol else "") ++
  body

/-- `_complete_thread` lines 186-200: body-only output when the
`body_only` setting is true and `200 <= status <= 299`; otherwise status
line, headers and body. -/
def complete_output (body_only : Bool) (status : Nat)
    (status_line headers body eol : String) : String :=
  if body_only = true ∧ 200 ≤ status ∧ status ≤ 299 then
    insert_response "" "" body eol
  else
    insert_response status_line headers body eol

/-! ## Response-body post-processing commands (`_complete_thread` lines
202-237) -/

/-- One entry of the configured `response_body_commands` list:
the optional `content-type` gate member and the `commands` member. -/
structure BodyCommand where
  contentType : Option PyVal
  commands : List String

/-- `_complete_thread` lines 209-237 for one configured command,
returning the editor commands to run (empty when filtered out) or the
`TypeError` the code raises on a malformed gate.  `actual` is the
response's content-type header (`None` when absent); the code lower-cases
it first and treats an empty header as absent (falsy).  The gate is
checked only when the actual content type is truthy: a string gate is an
exact lower-cased match, an all-string iterable gate is lower-cased
membership (a dict iterates its keys, which are strings), anything else
raises `TypeError`. -/
def run_body_command (actual : Option String) (cmd : BodyCommand) :
    Except Unit (List String) :=
  match cmd.contentType with
  | Option.none => .ok cmd.commands
  | some gate =>
    if optStrTruthy actual then
      let act := lowerStr (actual.getD "")
      match gate with
      | .str s => .ok (if act = lowerStr s then cmd.commands else [])
      | .list xs =>
        if xs.all PyVal.isStr then
          let lowered := xs.map (fun x =>
            match x with
            | .str s => lowerStr s
            | _ => "")
          .ok (if lowered.contains act then cmd.commands else [])
        else .error ()
      | .dict d =>
        .ok (if (d.map (fun kv => lowerStr kv.1)).contains act then cmd.commands
             else [])
      | _ => .error ()
    else .ok []

/-- The loop over `settings.get("response_body_commands", [])`: collect
the commands to run; a raised `TypeError` propagates (nothing catches it
in `_complete_thread`). -/
def run_body_commands (actual : Option String) :
    List BodyCommand → Except Unit (List String)
  | [] => .ok []
  | cmd :: rest =>
    match run_body_command actual cmd with
    | .error e => .error e
    | .ok cs =>
      match run_body_commands actual rest with
      | .error e => .error e
      | .ok cs' => .ok (cs ++ cs')

/-- A malformed content-type gate in the sense of the spec: present but
neither a string nor a collection whose items are all strings. -/
def malformedGate : PyVal → Bool
  | .str _ => false
  | .list xs => !xs.all PyVal.isStr
  | .dict _ => false
  | _ => true

/-- Decidable equality for `Except`, so concrete runs of the fallible
embedded functions can be checked by `decide`. -/
instance {ε α : Type} [DecidableEq ε] [DecidableEq α] : DecidableEq (Except ε α) :=
  fun x y =>
    match x, y with
    | .ok a, .ok b =>
      if h : a = b then .isTrue (by rw [h])
      else .isFalse (by intro hh; cases hh; exact h rfl)
    | .error a, .error b =>
      if h : a = b then .isTrue (by rw [h])
      else .isFalse (by intro hh; cases hh; exact h rfl)
    | .ok _, .error _ => .isFalse (by intro hh; cases hh)
    | .error _, .ok _ => .isFalse (by intro hh; cases hh)

/-! ## Claim theorems -/

/-- C1 (code_bug evidence): with an empty default-headers dict, a request
text containing the header line `X-Test: 1` parses that line into the
local headers dict of `_parse_header_lines` (first conjunct), yet the
final headers mapping is empty — the merge `if headers and self._headers`
is skipped because the defaults are empty, so the parsed header entry is
dropped instead of being merged on top of the (empty) defaults. -/
theorem c1_parsed_headers_dropped_with_empty_defaults :
    parse_header_line_step ([], []) "X-Test: 1" = .ok ([("X-Test", "1")], []) ∧
    parse_string [] "\n" "GET /path HTTP/1.1\nX-Test: 1" =
      .ok { scheme := "", hostname := Option.none, path := some "/path",
            query := some "", method := "GET", headers := [],
            body := Option.none, overrides := [] } := by
  exact ⟨by decide, by decide⟩

/-- C2 (code_bug evidence): a request whose header section holds a
whitespace-only line (here a single space) does not complete parsing: the
line lstrips to the empty string and `header[0]` raises `IndexError`,
contradicting the claim that such a line is skipped without error. -/
theorem c2_whitespace_header_line_raises :
    parse_string [] "\n" "/path\n " = .error PErr.indexError := by
  decide

/-- C3 (code_bug evidence): for the request line `GET /path HTTP/1.1` —
scheme-less URI, protocol token without `HTTPS` — the parsed scheme is
the empty string, not `"http"` as the claim (and the code's own comment
"Default is http") states: `self._scheme = uri.scheme` overwrites the
`__init__` default with `""`.  The `HTTPS` half of the claim does hold:
with protocol `HTTPS/1.1` the scheme is `"https"`. -/
theorem c3_scheme_left_empty_not_http :
    (parse_string [] "\n" "GET /path HTTP/1.1").map Request.scheme = .ok "" ∧
    (parse_string [] "\n" "GET /path HTTP/1.1").map Request.scheme ≠ .ok "http" ∧
    (parse_string [] "\n" "GET /path HTTPS/1.1").map Request.scheme = .ok "https" := by
  exact ⟨by decide, by decide, by decide⟩

/-- C8: parsing `example.com/foo` (no scheme, no method) yields
hostname `example.com`, path `/foo` and method `GET`, via the fallback
that re-parses `//` + path once no hostname was resolved. -/
theorem c8_schemeless_hostpath_fallback :
    parse_string [] "\n" "example.com/foo" =
      .ok { scheme := "", hostname := some "example.com", path := some "/foo",
            query := some "", method := "GET", headers := [],
            body := Option.none, overrides := [] } := by
  decide

/-- C4 (counterexample): a command list whose only entry has the
malformed content-type gate `5` (an integer) is processed without any
raised error when the response carries no content-type header — the
command is silently skipped (`run` stays false), contradicting the claim
that the configuration error is raised in that case. -/
theorem c4_counterexample_no_content_type_no_error :
    run_body_commands Option.none [⟨some (PyVal.int 5), ["x"]⟩] = .ok [] := by
  decide

/-- C5 (counterexample): when the content-type header and the body bytes
sniff to the same encoding, the candidate list contains it twice — the
body-sniffed encoding is appended without the "not already in the list"
check the claim states, so the list does contain duplicates. -/
theorem c5_counterexample_duplicate_candidates :
    build_encodings (some "text/html; charset=utf-8")
        (asciiBytes "<meta charset=utf-8>") [] = ["utf-8", "utf-8"] ∧
    ¬ (build_encodings (some "text/html; charset=utf-8")
        (asciiBytes "<meta charset=utf-8>") []).Nodup := by
  exact ⟨by decide, by decide⟩

/-- C9 (counterexample): a header section containing `@timeout: 5` and
`@body_only: true` but also a later `@timeout: 7` yields an override map
binding `timeout` to 7, not 5 — later overrides win, so the claim's
universal statement over every section containing those two lines is
false. -/
theorem c9_counterexample_later_override_wins :
    parse_header_lines [] ["@timeout: 5", "@body_only: true", "@timeout: 7"] =
      .ok ([], [("timeout", Json.num 7), ("body_only", Json.bool true)]) ∧
    dictLookup [("timeout", Json.num 7), ("body_only", Json.bool true)] "timeout" ≠
      some (Json.num 5) := by
  exact ⟨by decide, by decide⟩

/-! ## Helper lemmas -/

theorem dictLookup_dictInsert_self {β : Type} (d : List (String × β)) (k : String)
    (v : β) : dictLookup (dictInsert d k v) k = some v := by
  induction d with
  | nil => simp [dictInsert, dictLookup]
  | cons kv rest ih =>
    obtain ⟨k', v'⟩ := kv
    by_cases h : k' = k <;> simp [dictInsert, dictLookup, h, ih]

theorem dictLookup_dictInsert_ne {β : Type} (d : List (String × β)) (k k' : String)
    (v : β) (h : k' ≠ k) : dictLookup (dictInsert d k' v) k = dictLookup d k := by
  induction d with
  | nil => simp [dictInsert, dictLookup, h]
  | cons kv rest ih =>
    obtain ⟨k'', v''⟩ := kv
    by_cases h2 : k'' = k' <;> by_cases h3 : k'' = k <;>
      simp_all [dictInsert, dictLookup]

theorem parse_header_lines_aux_append
    (acc : List (String × String) × List (String × Json)) (l₁ l₂ : List String) :
    parse_header_lines_aux acc (l₁ ++ l₂) =
      match parse_header_lines_aux acc l₁ with
      | .ok acc' => parse_header_lines_aux acc' l₂
      | .error e => .error e := by
  induction l₁ generalizing acc with
  | nil => simp [parse_header_lines_aux]
  | cons l rest ih =>
    simp only [List.cons_append, parse_header_lines_aux]
    cases parse_header_line_step acc l with
    | ok acc' => exact ih acc'
    | error e => rfl

/-- Processing the line `@timeout: 5` stores the JSON number 5 under the
key `timeout`. -/
theorem step_timeout_five (acc : List (String × String) × List (String × Json)) :
    parse_header_line_step acc "@timeout: 5" =
      .ok (acc.1, dictInsert acc.2 "timeout" (Json.num 5)) := rfl

/-- Processing the line `@body_only: true` stores the JSON boolean true
under the key `body_only`. -/
theorem step_body_only_true (acc : List (String × String) × List (String × Json)) :
    parse_header_line_step acc "@body_only: true" =
      .ok (acc.1, dictInsert acc.2 "body_only" (Json.bool true)) := rfl

theorem decode_eq_error_of_all_none (d : String → List Nat → Option String)
    (b : List Nat) (es : List String) (h : ∀ e ∈ es, d e b = Option.none) :
    decode d b es = .error () := by
  induction es with
  | nil => rfl
  | cons e rest ih =>
    simp only [decode, h e (List.mem_cons_self e rest)]
    exact ih (fun x hx => h x (List.mem_cons_of_mem e hx))

theorem decode_first_success (d : String → List Nat → Option String)
    (b : List Nat) (e : String) (s : String) (es₁ es₂ : List String)
    (h1 : ∀ x ∈ es₁, d x b = Option.none) (h2 : d e b = some s) :
    decode d b (es₁ ++ e :: es₂) = .ok s := by
  induction es₁ with
  | nil => simp [decode, h2]
  | cons x rest ih =>
    simp only [List.cons_append, decode, h1 x (List.mem_cons_self x rest)]
    exact ih (fun y hy => h1 y (List.mem_cons_of_mem x hy))

/-- The full output (status line non-empty) is never just the body: it is
strictly longer. -/
theorem insert_response_ne_body (sl hd b eol : String) (h : sl ≠ "") :
    insert_response sl hd b eol ≠ b := by
  intro he
  rw [insert_response, if_pos h] at he
  have hlen := congrArg (fun s => s.data.length) he
  simp only [String.data_append, List.length_append] at hlen
  have hz : sl.data.length = 0 := by omega
  exact h (String.ext (List.length_eq_zero.mp hz))

/-- C4 (amended): a malformed content-type gate raises `TypeError` only
when the response carries a truthy content-type header; the error then
propagates through the command loop (not swallowed).  When the response
has no content-type header the command is skipped without any error.
The check runs during response post-processing, after the response has
been received, not before network I/O. -/
theorem c4_amended_gate_error_needs_content_type (act : String) (gate : PyVal)
    (cmds : List String) (rest : List BodyCommand)
    (hm : malformedGate gate = true) (ha : act ≠ "") :
    run_body_command (some act) ⟨some gate, cmds⟩ = .error () ∧
    run_body_command Option.none ⟨some gate, cmds⟩ = .ok [] ∧
    run_body_commands (some act) (⟨some gate, cmds⟩ :: rest) = .error () := by
  have h1 : run_body_command (some act) ⟨some gate, cmds⟩ = .error () := by
    cases gate <;> simp_all [run_body_command, malformedGate, optStrTruthy]
  refine ⟨h1, by simp [run_body_command, optStrTruthy], ?_⟩
  simp only [run_body_commands, h1]

/-- Witness for C4 (amended) at a concrete malformed gate (the integer
5) and content type `text/html`. -/
theorem c4_amended_witness :
    run_body_command (some "text/html") ⟨some (PyVal.int 5), ["x"]⟩ = .error () ∧
    run_body_command Option.none ⟨some (PyVal.int 5), ["x"]⟩ = .ok [] ∧
    run_body_commands (some "text/html") [⟨some (PyVal.int 5), ["x"]⟩] = .error () := by
  have h := c4_amended_gate_error_needs_content_type "text/html" (PyVal.int 5)
    ["x"] [] (by decide) (by decide)
  exact h

/-- C5 (amended): the candidate encoding list is the header-sniffed
encoding if present, then the body-sniffed encoding if present — appended
unconditionally, so it may duplicate the header-sniffed entry — then the
configured defaults in order, each skipped when already present. -/
theorem c5_amended_candidate_list_shape (content_type : Option String)
    (body_bytes : List Nat) (default_encodings : List String) :
    build_encodings content_type body_bytes default_encodings =
      build_encodings_amended_spec (header_encoding content_type)
        (scan_bytes_for_encoding body_bytes) default_encodings := by
  unfold build_encodings build_encodings_amended_spec header_encoding
  cases h1 : optStrTruthy content_type <;>
    cases h2 : scan_string_for_encoding (content_type.getD "") <;>
      cases h3 : scan_bytes_for_encoding body_bytes <;>
        simp [h1, h2, h3]

/-- C6: if every candidate encoding fails to decode the bytes (in
particular when the candidate list is empty), the decoded body is exactly
the placeholder `{Unable to decode body}` and no failure propagates;
otherwise the body is the result of decoding with the first succeeding
candidate. -/
theorem c6_decode_first_success_or_placeholder
    (d : String → List Nat → Option String) (b : List Nat) (es : List String) :
    ((∀ e ∈ es, d e b = Option.none) →
      decodeBodyOrPlaceholder d b es = "\x7bUnable to decode body\x7d") ∧
    (∀ es₁ e es₂ s, es = es₁ ++ e :: es₂ →
      (∀ x ∈ es₁, d x b = Option.none) → d e b = some s →
      decodeBodyOrPlaceholder d b es = s) := by
  constructor
  · intro h
    unfold decodeBodyOrPlaceholder
    rw [decode_eq_error_of_all_none d b es h]
  · intro es₁ e es₂ s hsplit h1 h2
    unfold decodeBodyOrPlaceholder
    rw [hsplit, decode_first_success d b e s es₁ es₂ h1 h2]

/-- Witness for C6 at concrete inputs: the byte 255 is not ASCII, so with
candidate list `["ascii"]` the body degrades to the placeholder; the
bytes of `hi` decode with the first candidate. -/
theorem c6_witness :
    decodeBodyOrPlaceholder asciiOracle [255] ["ascii"] = "\x7bUnable to decode body\x7d" ∧
    decodeBodyOrPlaceholder asciiOracle (asciiBytes "hi") ["ascii"] = "hi" := by
  constructor
  · exact (c6_decode_first_success_or_placeholder asciiOracle [255] ["ascii"]).1
      (by decide)
  · exact (c6_decode_first_success_or_placeholder asciiOracle (asciiBytes "hi")
      ["ascii"]).2 [] "ascii" [] "hi" rfl (by decide) (by decide)

/-- C7: with a non-empty status line, the output equals the body alone
exactly when the `body_only` setting is true and the status is in
[200, 299]; and for status 304 with `body_only` true the output is the
full status-line/headers/body form. -/
theorem c7_body_only_iff (body_only : Bool) (status : Nat)
    (status_line headers body eol : String) (hsl : status_line ≠ "") :
    (complete_output body_only status status_line headers body eol = body ↔
      body_only = true ∧ 200 ≤ status ∧ status ≤ 299) ∧
    (body_only = true →
      complete_output body_only 304 status_line headers body eol =
        insert_response status_line headers body eol) := by
  constructor
  · by_cases hc : body_only = true ∧ 200 ≤ status ∧ status ≤ 299
    · rw [complete_output, if_pos hc]
      have hb : insert_response "" "" body eol = body := rfl
      simp [hb, hc]
    · rw [complete_output, if_neg hc]
      constructor
      · intro he; exact absurd he (insert_response_ne_body _ _ _ _ hsl)
      · intro h; exact absurd h hc
  · intro hbo
    have hc : ¬(body_only = true ∧ 200 ≤ 304 ∧ 304 ≤ 299) := by
      rintro ⟨_, _, h3⟩; omega
    rw [complete_output, if_neg hc]

/-- Witness for C7 at concrete inputs: status 250 with `body_only` true
gives body-only output; status 304 with `body_only` true gives the full
form. -/
theorem c7_witness :
    complete_output true 250 "HTTP/1.1 250 OK" "X: 1" "body" "\n" = "body" ∧
    complete_output true 304 "HTTP/1.1 304 NM" "X: 1" "body" "\n" =
      insert_response "HTTP/1.1 304 NM" "X: 1" "body" "\n" := by
  constructor
  · exact (c7_body_only_iff true 250 "HTTP/1.1 250 OK" "X: 1" "body" "\n"
      (by decide)).1.mpr ⟨rfl, by omega, by omega⟩
  · exact (c7_body_only_iff true 304 "HTTP/1.1 304 NM" "X: 1" "body" "\n"
      (by decide)).2 rfl

/-- C9 (amended): for every header section ending in the lines
`@timeout: 5` and `@body_only: true` whose earlier lines all parse, the
resulting override map binds `timeout` to the JSON number 5 and
`body_only` to the JSON boolean true — typed JSON values, because each
override value goes through `json.loads`. -/
theorem c9_amended_typed_json_overrides (default_headers : List (String × String))
    (pre : List String) (acc : List (String × String) × List (String × Json))
    (h : parse_header_lines_aux ([], []) pre = .ok acc) :
    ∃ result, parse_header_lines default_headers
        (pre ++ ["@timeout: 5", "@body_only: true"]) = .ok result ∧
      dictLookup result.2 "timeout" = some (Json.num 5) ∧
      dictLookup result.2 "body_only" = some (Json.bool true) := by
  unfold parse_header_lines
  rw [parse_header_lines_aux_append, h]
  simp only [parse_header_lines_aux, step_timeout_five, step_body_only_true]
  refine ⟨_, rfl, ?_, ?_⟩
  · rw [dictLookup_dictInsert_ne _ _ _ _ (by decide), dictLookup_dictInsert_self]
  · rw [dictLookup_dictInsert_self]

/-- Witness for C9 (amended) at the concrete header section consisting
of exactly the two override lines. -/
theorem c9_amended_witness :
    ∃ result, parse_header_lines []
        ([] ++ ["@timeout: 5", "@body_only: true"]) = .ok result ∧
      dictLookup result.2 "timeout" = some (Json.num 5) ∧
      dictLookup result.2 "body_only" = some (Json.bool true) :=
  c9_amended_typed_json_overrides [] [] ([], []) rfl

/-- C10: a configured `default_headers` value that is not a mapping is
replaced by an empty mapping instead of failing, and parsing any request
text then proceeds exactly as if no default headers were configured. -/
theorem c10_non_dict_default_headers (v : PyVal) (h : v.isDict = false) :
    init_default_headers (some v) = [] ∧
    init_default_headers Option.none = [] ∧
    ∀ eol text, parse_string (init_default_headers (some v)) eol text =
      parse_string (init_default_headers Option.none) eol text := by
  have h1 : init_default_headers (some v) = [] := by
    cases v <;> simp_all [init_default_headers, PyVal.isDict]
  exact ⟨h1, rfl, fun eol text => by rw [h1]; rfl⟩

/-- Witness for C10 at the concrete non-mapping value `"oops"` (a
string) and the request text `example.com/foo`. -/
theorem c10_witness :
    init_default_headers (some (PyVal.str "oops")) = [] ∧
    parse_string (init_default_headers (some (PyVal.str "oops"))) "\n"
        "example.com/foo" =
      parse_string (init_default_headers Option.none) "\n" "example.com/foo" := by
  have h := c10_non_dict_default_headers (PyVal.str "oops") (by decide)
  exact ⟨h.1, h.2.2 "\n" "example.com/foo"⟩
